import Mathlib

/-!
OpenGLproj1: the shader source loader and the render loop of `Application.cpp`

A shallow embedding of the two pieces of logic in `src/OpenGLproj1/src/Application.cpp`:

* `ParseShader` (lines 45-89): the line loop that splits a shader file into a vertex and
  a fragment text;
* the body of the render loop of `main` (lines 245-282) with the transform update
  (lines 252-273), as a step function on an explicit state that emits the driver calls.

Conventions of the embedding.

* A `std::string` is a list of characters, `std::string::find(x) != npos` is `contains`.
* The input stream is `Option Str`: `none` when the file could not be opened, otherwise
  the characters the stream delivers; `getlines` is the sequence of lines the successive
  `getline` calls yield.
* A `float` or `double` is an IEEE 754 binary32 or binary64 datum (`FP`): a finite value,
  given by the rational number it denotes, an infinity or a NaN. Every arithmetic operation
  computes the exact result and rounds it to the format, to nearest with ties to even;
  an expression is evaluated in the precision of its type.
* A `glm::mat4` is recorded as the product of the elementary matrices it was built from
  (`[]` is `glm::mat4(1.0f)`, `a ++ b` is the product `a * b` as glm computes it). The
  record fixes which matrices are multiplied and in which order; the rounded entries of
  the products and the sines and cosines inside a rotation matrix are not described.
* `GLuint` is a natural number reduced modulo `2 ^ 32`.
-/

namespace OpenGLproj1

/-! ## Strings -/

/-- A `std::string`: the sequence of its characters. -/
abbrev Str := List Char

/-- The search loop of `std::string::find`: the first position at or after `i` (counted
from the start of the whole string) where `needle` occurs in the remaining text `s`. -/
def findFrom (needle : Str) : Str → Nat → Option Nat
  | [], i => if needle.isPrefixOf [] then some i else none
  | c :: s, i => if needle.isPrefixOf (c :: s) then some i else findFrom needle s (i + 1)

/-- The call `s.find(needle)`: position of the first occurrence, `none` for `npos`. -/
def find (s needle : Str) : Option Nat := findFrom needle s 0

/-- The test `s.find(needle) != std::string::npos`. -/
def contains (s needle : Str) : Bool := (find s needle).isSome

/-- The literal `"#shader"` (line 66). -/
def shaderMarker : Str := ['#', 's', 'h', 'a', 'd', 'e', 'r']

/-- The literal `"vertex"` (line 68). -/
def vertexKeyword : Str := ['v', 'e', 'r', 't', 'e', 'x']

/-- The literal `"fragment"` (line 70). -/
def fragmentKeyword : Str := ['f', 'r', 'a', 'g', 'm', 'e', 'n', 't']

/-- The line feed character written by `<< '\n'` and consumed by `getline`. -/
def newline : Char := Char.ofNat 10

/-! ## The input stream -/

/-- The lines produced by calling `getline(stream, line)` until it fails, on a stream
holding `cs`; `cur` is the part of the current line already extracted. A line ends at a
line feed, which is consumed and not stored; at the end of the stream a non-empty partial
line is still delivered, an empty one makes `getline` fail. -/
def getlinesAux : Str → Str → List Str
  | [], cur => if cur.isEmpty then [] else [cur]
  | c :: cs, cur => if c = newline then cur :: getlinesAux cs [] else getlinesAux cs (cur ++ [c])

/-- All lines of a stream, in the order `while (getline(stream, line))` sees them. -/
def getlines (contents : Str) : List Str := getlinesAux contents []

/-! ## ParseShader -/

/-- The struct `ShaderProgramSource` (lines 39-43). -/
structure ShaderProgramSource where
  VertexSource : Str
  FragmentSource : Str
deriving DecidableEq, Repr

/-- The enum `ShaderType` (lines 56-59). -/
inductive ShaderType where
  | NONE
  | VERTEX
  | FRAGMENT
deriving DecidableEq, Repr

/-- The cast `(int)type`: `NONE = -1, VERTEX = 0, FRAGMENT = 1`. -/
def ShaderType.toInt : ShaderType → Int
  | .NONE => -1
  | .VERTEX => 0
  | .FRAGMENT => 1

/-- How a call of `ParseShader` ends.

* `returned src`: line 83 is reached and `src` is returned;
* `caught what`: a `std::runtime_error` was thrown inside the `try` block, the handler of
  lines 85-88 printed `what` to `std::cerr`, and control left the function without a
  `return` statement, so no value is returned;
* `invalidIndex i`: line 79 subscripted the two-element array `ss` with `i` outside
  `0..1`; the behaviour of the program is undefined from there on. -/
inductive ParseResult where
  | returned (src : ShaderProgramSource)
  | caught (what : String)
  | invalidIndex (i : Int)
deriving DecidableEq, Repr

/-- The `while (getline(stream, line))` loop of lines 64-81 followed by the `return` of
line 83. `type` is the active section, `ss0` and `ss1` are the contents of `ss[0]` and
`ss[1]`. -/
def parseLoop : List Str → ShaderType → Str → Str → ParseResult
  | [], _, ss0, ss1 => .returned ⟨ss0, ss1⟩
  | line :: rest, type, ss0, ss1 =>
    if contains line shaderMarker then
      if contains line vertexKeyword then
        parseLoop rest .VERTEX ss0 ss1
      else if contains line fragmentKeyword then
        parseLoop rest .FRAGMENT ss0 ss1
      else
        .caught "Failed to find vertex or fragment shaders!"
    else
      if type.toInt = 0 then
        parseLoop rest type (ss0 ++ line ++ [newline]) ss1
      else if type.toInt = 1 then
        parseLoop rest type ss0 (ss1 ++ line ++ [newline])
      else
        .invalidIndex type.toInt

/-- The function `ParseShader` (lines 45-89) on the stream opened for `filepath`. -/
def ParseShader (stream : Option Str) : ParseResult :=
  match stream with
  | none => .caught "The shader file failed to open"
  | some contents => parseLoop (getlines contents) .NONE [] []

/-- The section indices used by the appends of line 79, in execution order, up to the
point where the loop ends, throws, or subscripts outside the array. -/
def appendIndices : List Str → ShaderType → List Int
  | [], _ => []
  | line :: rest, type =>
    if contains line shaderMarker then
      if contains line vertexKeyword then
        appendIndices rest .VERTEX
      else if contains line fragmentKeyword then
        appendIndices rest .FRAGMENT
      else
        []
    else
      if type.toInt = 0 ∨ type.toInt = 1 then
        type.toInt :: appendIndices rest type
      else
        [type.toInt]

/-- Whether `line` is a directive line that selects the vertex section: the tests of
lines 66 and 68 both succeed. -/
def selectsVertex (line : Str) : Bool :=
  contains line shaderMarker && contains line vertexKeyword

/-- Whether `line` is a directive line that selects the fragment section: the test of
line 66 succeeds, the test of line 68 fails and the test of line 70 succeeds. -/
def selectsFragment (line : Str) : Bool :=
  contains line shaderMarker && !contains line vertexKeyword && contains line fragmentKeyword

/-- Whether `line` is a directive line with an unrecognised keyword: the test of line 66
succeeds and the tests of lines 68 and 70 fail. -/
def unrecognisedDirective (line : Str) : Bool :=
  contains line shaderMarker && !contains line vertexKeyword && !contains line fragmentKeyword

/-- The text `l1 ++ "\n" ++ l2 ++ "\n" ++ ...`: every line followed by a line feed, in
order. -/
def joinLines : List Str → Str
  | [] => []
  | l :: ls => l ++ newline :: joinLines ls

/-! ## Binary floating point -/

/-- An IEEE 754 binary format: `prec` significand bits (the implicit leading bit included)
and the exponents `emin .. emax` of the normal numbers. -/
structure FloatFormat where
  prec : Nat
  emin : Int
  emax : Int

/-- The format of `float` and `GLfloat`. -/
def binary32 : FloatFormat := ⟨24, -126, 127⟩

/-- The format of `double`. -/
def binary64 : FloatFormat := ⟨53, -1022, 1023⟩

/-- A floating-point datum: a finite value (the rational number it denotes), an infinity
with its sign, or a NaN. The sign of a zero is not recorded. -/
inductive FP where
  | finite (v : ℚ)
  | inf (negative : Bool)
  | nan
deriving DecidableEq, Repr

/-- The integer nearest to `r`, the even one of the two when `r` lies halfway. -/
def roundHalfEven (r : ℚ) : Int :=
  if r - ⌊r⌋ < 1 / 2 then ⌊r⌋
  else if 1 / 2 < r - ⌊r⌋ then ⌊r⌋ + 1
  else if ⌊r⌋ % 2 = 0 then ⌊r⌋ else ⌊r⌋ + 1

/-- The spacing of the numbers of format `fmt` around `x`: one unit in the last place of
the binade of `x`, or of the lowest binade when `x` is subnormal. -/
def quantum (fmt : FloatFormat) (x : ℚ) : ℚ :=
  2 ^ (max (Int.log 2 |x|) fmt.emin - ((fmt.prec : Int) - 1))

/-- Rounding of the exact value `x` to format `fmt`, to nearest with ties to even; a result
beyond the largest finite number becomes an infinity. -/
def roundTo (fmt : FloatFormat) (x : ℚ) : FP :=
  if x = 0 then .finite 0
  else if 2 ^ (fmt.emax + 1) ≤ |(roundHalfEven (x / quantum fmt x) : ℚ) * quantum fmt x| then
    .inf (decide (x < 0))
  else .finite (roundHalfEven (x / quantum fmt x) * quantum fmt x)

/-- Negation of a floating-point datum (exact). -/
def FP.neg : FP → FP
  | .finite a => .finite (-a)
  | .inf s => .inf (!s)
  | .nan => .nan

/-- Addition carried out in format `fmt`. -/
def FP.add (fmt : FloatFormat) : FP → FP → FP
  | .finite a, .finite b => roundTo fmt (a + b)
  | .finite _, .inf s => .inf s
  | .inf s, .finite _ => .inf s
  | .inf s, .inf t => if s = t then .inf s else .nan
  | .nan, _ => .nan
  | _, .nan => .nan

/-- Subtraction carried out in format `fmt`. -/
def FP.sub (fmt : FloatFormat) (a b : FP) : FP := FP.add fmt a (FP.neg b)

/-- Conversion of a datum to format `fmt`. -/
def FP.convert (fmt : FloatFormat) : FP → FP
  | .finite a => roundTo fmt a
  | .inf s => .inf s
  | .nan => .nan

/-- The value of a `float` literal such as `1.0f` or `20.0f` written as the decimal `q`. -/
def floatLiteral (q : ℚ) : FP := roundTo binary32 q

/-- The value of a `double` literal such as `0.05` written as the decimal `q`. -/
def doubleLiteral (q : ℚ) : FP := roundTo binary64 q

/-- The statement `x -= c` for a `float` variable `x` and a `double` operand `c`: `x` is
converted to `double` (exactly), the difference is computed in `double` and the result is
converted to `float` by the assignment. -/
def subAssignDouble (x c : FP) : FP := FP.convert binary32 (FP.sub binary64 x c)

/-- The statement `x += y` for a `float` variable `x` and a `float` operand `y`. -/
def addAssignFloat (x y : FP) : FP := FP.add binary32 x y

/-! ## Matrices -/

/-- An elementary matrix built by the program: `scale x y z` is the diagonal scaling
matrix of `glm::scale` for `glm::vec3(x, y, z)`, `rotateZ deg` is the rotation of
`glm::rotate` by `glm::radians(deg)` about the axis `(0, 0, 1)`. -/
inductive Elem where
  | scale (x y z : FP)
  | rotateZ (deg : FP)
deriving DecidableEq, Repr

/-- A `glm::mat4` as the product of elementary matrices it was built from, leftmost factor
first; `[]` is the identity `glm::mat4(1.0f)` and `a ++ b` is `a * b`. -/
abbrev Mat4 := List Elem

/-- The matrix `glm::mat4(1.0f)`. -/
def mat4Identity : Mat4 := []

/-- The call `glm::scale(m, glm::vec3(x, y, z))`, which returns `m * S`. -/
def glmScale (m : Mat4) (x y z : FP) : Mat4 := m ++ [Elem.scale x y z]

/-- The call `glm::rotate(m, glm::radians(deg), glm::vec3(0, 0, 1))`, which returns
`m * R`. -/
def glmRotateZ (m : Mat4) (deg : FP) : Mat4 := m ++ [Elem.rotateZ deg]

/-- The local variables of `main` that the render loop reads and writes (lines 213-230).
The variables `tr` and `originalModel` are never read after their initialisation and are
left out. -/
structure LoopState where
  model : Mat4
  scaleX : FP
  scaleY : FP
  angle : FP
  rot : Mat4
  sc : Mat4
  timer : Nat
  Turn : Bool
deriving DecidableEq, Repr

/-- The constant `GLuint delayTime = 4000` (line 228); it is never assigned again. -/
def delayTime : Nat := 4000

/-- The values of the variables when the loop is entered (lines 213-230). -/
def initialState : LoopState where
  model := mat4Identity
  scaleX := floatLiteral 1
  scaleY := floatLiteral 1
  angle := floatLiteral 0
  rot := glmRotateZ mat4Identity (floatLiteral 0)
  sc := glmScale mat4Identity (floatLiteral 1) (floatLiteral 1) (floatLiteral 1)
  timer := 50
  Turn := true

/-- The body of `if (timer == 0)` up to the end of the `Turn` branches (lines 253-269). -/
def transformUpdate (s : LoopState) : LoopState :=
  let scaleX := subAssignDouble s.scaleX (doubleLiteral 0.05)
  let scaleY := subAssignDouble s.scaleY (doubleLiteral 0.05)
  let angle := addAssignFloat s.angle (floatLiteral 20)
  let rot := glmRotateZ mat4Identity angle
  let sc := glmScale mat4Identity scaleX scaleY (floatLiteral 1)
  if s.Turn then
    { model := sc ++ s.model, scaleX := scaleX, scaleY := scaleY, angle := angle,
      rot := rot, sc := sc, timer := delayTime, Turn := !s.Turn }
  else
    { model := rot ++ s.model, scaleX := scaleX, scaleY := scaleY, angle := angle,
      rot := rot, sc := sc, timer := delayTime, Turn := !s.Turn }

/-- A call into the graphics driver or the windowing library made by the render loop.
`glDrawElements count` is `glDrawElements(GL_TRIANGLES, count, GL_UNSIGNED_INT, nullptr)`
and `glUniformMatrix4fv m` uploads `m` to the uniform `u_Model`. -/
inductive DriverCall where
  | glClear
  | glGetError
  | glDrawElements (count : Nat)
  | glUniformMatrix4fv (value : Mat4)
  | glfwSwapBuffers
  | glfwPollEvents
deriving DecidableEq, Repr

/-- The statement `timer -= 1` on a `GLuint`. -/
def decrement (timer : Nat) : Nat := (timer + 2 ^ 32 - 1) % 2 ^ 32

/-- One iteration of the render loop (lines 247-281): the state after it and the calls it
makes, in order. The driver reports no error, so `GLClearError` and `GLLogCall` each call
`glGetError` once and the `ASSERT` of `GLCall` passes. -/
def frame (s : LoopState) : LoopState × List DriverCall :=
  let draw := [DriverCall.glClear, .glGetError, .glDrawElements 9, .glGetError]
  let present := [DriverCall.glfwSwapBuffers, .glfwPollEvents]
  if s.timer = 0 then
    let s1 := transformUpdate s
    ({ s1 with timer := decrement s1.timer }, draw ++ [.glUniformMatrix4fv s1.model] ++ present)
  else
    ({ s with timer := decrement s.timer }, draw ++ present)

/-- The first `n` iterations of the render loop from state `s` (the window is not closed
during them): the state reached and all calls made. -/
def runFrames : Nat → LoopState → LoopState × List DriverCall
  | 0, s => (s, [])
  | n + 1, s => ((runFrames n (frame s).1).1, (frame s).2 ++ (runFrames n (frame s).1).2)

/-- The state at the loop test before iteration `i` (iterations are counted from 0). -/
def stateAt (i : Nat) : LoopState := (runFrames i initialState).1

/-- Whether the trigger fires in iteration `i`: `timer == 0` holds at line 252. -/
def fires (i : Nat) : Bool := (stateAt i).timer = 0

/-- The variables after the first `n` triggers of the transform update. -/
def afterTriggers : Nat → LoopState
  | 0 => initialState
  | n + 1 => transformUpdate (afterTriggers n)

/-- The number of indexed draw calls covering `count` indices in a sequence of calls. -/
def drawCalls (count : Nat) (calls : List DriverCall) : Nat :=
  calls.count (DriverCall.glDrawElements count)

/-- The number of indexed draw calls of any size in a sequence of calls. -/
def allDrawCalls : List DriverCall → Nat
  | [] => 0
  | DriverCall.glDrawElements _ :: cs => allDrawCalls cs + 1
  | _ :: cs => allDrawCalls cs

/-! ## Auxiliary notions for the proofs -/

/-- A text assembled from whole lines none of which contains the marker. -/
def MarkerFree (t : Str) : Prop :=
  ∃ ls : List Str, t = joinLines ls ∧ ∀ l ∈ ls, contains l shaderMarker = false

/-- The value of `timer` at the test of line 252 in iteration `i`. -/
def timerAt (i : Nat) : Nat := if i ≤ 50 then 50 - i else 3999 - (i - 51) % 4000

/-- The number of triggers in the iterations before iteration `i`. -/
def triggersBefore (i : Nat) : Nat := if i ≤ 50 then 0 else (i - 51) / 4000 + 1

/-! ## Facts about strings -/

theorem findFrom_isSome_iff (needle : Str) (s : Str) (i : Nat) :
    (findFrom needle s i).isSome = true ↔ needle <:+: s := by
  induction s generalizing i with
  | nil =>
    unfold findFrom
    cases h : needle.isPrefixOf [] with
    | true =>
      simp only [if_true, Option.isSome_some, true_iff]
      exact (List.isPrefixOf_iff_prefix.mp h).isInfix
    | false =>
      simp only [Bool.false_eq_true, if_false, Option.isSome_none, false_iff]
      intro hin
      have hnil : needle = [] := List.eq_nil_of_infix_nil hin
      rw [hnil] at h
      exact absurd h (by decide)
  | cons c s ih =>
    unfold findFrom
    rw [List.infix_cons_iff]
    cases h : needle.isPrefixOf (c :: s) with
    | true =>
      simp only [if_true, Option.isSome_some, true_iff]
      exact Or.inl (List.isPrefixOf_iff_prefix.mp h)
    | false =>
      simp only [Bool.false_eq_true, if_false, ih]
      constructor
      · intro hin
        exact Or.inr hin
      · rintro (hp | hin)
        · rw [List.isPrefixOf_iff_prefix.mpr hp] at h
          exact absurd h (by decide)
        · exact hin

theorem contains_iff_occurs (s needle : Str) : contains s needle = true ↔ needle <:+: s := by
  unfold contains find
  exact findFrom_isSome_iff needle s 0

theorem starts_of_starts_append_sep (needle x y : Str) (c : Char) (hc : c ∉ needle)
    (h : needle <+: x ++ c :: y) : needle <+: x := by
  induction x generalizing needle with
  | nil =>
    cases needle with
    | nil => exact List.nil_prefix
    | cons b n =>
      simp only [List.nil_append] at h
      have hb : b = c := (List.cons_prefix_cons.mp h).1
      exact absurd (by simp [hb]) hc
  | cons a x ih =>
    cases needle with
    | nil => exact List.nil_prefix
    | cons b n =>
      simp only [List.cons_append] at h
      obtain ⟨hab, hn⟩ := List.cons_prefix_cons.mp h
      have hc2 : c ∉ n := fun hmem => hc (List.mem_cons_of_mem _ hmem)
      exact List.cons_prefix_cons.mpr ⟨hab, ih n hc2 hn⟩

theorem occurs_of_occurs_append_sep (needle x y : Str) (c : Char) (hc : c ∉ needle)
    (h : needle <:+: x ++ c :: y) : needle <:+: x ∨ needle <:+: y := by
  induction x with
  | nil =>
    simp only [List.nil_append] at h
    rcases List.infix_cons_iff.mp h with hp | hin
    · exact Or.inl (starts_of_starts_append_sep needle [] y c hc hp).isInfix
    · exact Or.inr hin
  | cons a x ih =>
    simp only [List.cons_append] at h
    rcases List.infix_cons_iff.mp h with hp | hin
    · exact Or.inl (starts_of_starts_append_sep needle (a :: x) y c hc hp).isInfix
    · rcases ih hin with h1 | h2
      · exact Or.inl (List.infix_cons h1)
      · exact Or.inr h2

theorem newline_not_mem_shaderMarker : newline ∉ shaderMarker := by decide

theorem joinLines_append (a b : List Str) : joinLines (a ++ b) = joinLines a ++ joinLines b := by
  induction a with
  | nil => rfl
  | cons l ls ih => simp [joinLines, ih]

theorem joinLines_ne_nil (ls : List Str) (h : ls ≠ []) : joinLines ls ≠ [] := by
  cases ls with
  | nil => exact absurd rfl h
  | cons l ls => simp [joinLines]

/-- A text made of lines without the marker does not contain the marker. -/
theorem not_contains_joinLines (ls : List Str)
    (h : ∀ l ∈ ls, contains l shaderMarker = false) :
    contains (joinLines ls) shaderMarker = false := by
  induction ls with
  | nil => decide
  | cons l ls ih =>
    have hl : contains l shaderMarker = false := h l (List.mem_cons_self _ _)
    have hls : contains (joinLines ls) shaderMarker = false :=
      ih (fun x hx => h x (List.mem_cons_of_mem _ hx))
    cases hcon : contains (joinLines (l :: ls)) shaderMarker with
    | false => rfl
    | true =>
      have hin : shaderMarker <:+: l ++ newline :: joinLines ls :=
        (contains_iff_occurs _ _).mp hcon
      rcases occurs_of_occurs_append_sep _ _ _ _ newline_not_mem_shaderMarker hin with h1 | h2
      · rw [(contains_iff_occurs _ _).mpr h1] at hl
        exact absurd hl (by decide)
      · rw [(contains_iff_occurs _ _).mpr h2] at hls
        exact absurd hls (by decide)

/-! ## Facts about the parse loop -/

theorem parseLoop_vertex_line (l : Str) (rest : List Str) (ss0 ss1 : Str)
    (h : contains l shaderMarker = false) :
    parseLoop (l :: rest) .VERTEX ss0 ss1
      = parseLoop rest .VERTEX (ss0 ++ l ++ [newline]) ss1 := by
  simp [parseLoop, h, ShaderType.toInt]

theorem parseLoop_fragment_line (l : Str) (rest : List Str) (ss0 ss1 : Str)
    (h : contains l shaderMarker = false) :
    parseLoop (l :: rest) .FRAGMENT ss0 ss1
      = parseLoop rest .FRAGMENT ss0 (ss1 ++ l ++ [newline]) := by
  simp [parseLoop, h, ShaderType.toInt]

theorem parseLoop_none_line (l : Str) (rest : List Str) (ss0 ss1 : Str)
    (h : contains l shaderMarker = false) :
    parseLoop (l :: rest) .NONE ss0 ss1 = .invalidIndex (-1) := by
  simp [parseLoop, h, ShaderType.toInt]

theorem parseLoop_vertex_directive (l : Str) (rest : List Str) (t : ShaderType) (ss0 ss1 : Str)
    (h : contains l shaderMarker = true) (hv : contains l vertexKeyword = true) :
    parseLoop (l :: rest) t ss0 ss1 = parseLoop rest .VERTEX ss0 ss1 := by
  simp [parseLoop, h, hv]

theorem parseLoop_fragment_directive (l : Str) (rest : List Str) (t : ShaderType)
    (ss0 ss1 : Str) (h : contains l shaderMarker = true)
    (hv : contains l vertexKeyword = false) (hf : contains l fragmentKeyword = true) :
    parseLoop (l :: rest) t ss0 ss1 = parseLoop rest .FRAGMENT ss0 ss1 := by
  simp [parseLoop, h, hv, hf]

theorem parseLoop_bad_directive (l : Str) (rest : List Str) (t : ShaderType)
    (ss0 ss1 : Str) (h : contains l shaderMarker = true)
    (hv : contains l vertexKeyword = false) (hf : contains l fragmentKeyword = false) :
    parseLoop (l :: rest) t ss0 ss1 = .caught "Failed to find vertex or fragment shaders!" := by
  simp [parseLoop, h, hv, hf]

theorem parseLoop_body_vertex (body rest : List Str) (ss0 ss1 : Str)
    (h : ∀ l ∈ body, contains l shaderMarker = false) :
    parseLoop (body ++ rest) .VERTEX ss0 ss1
      = parseLoop rest .VERTEX (ss0 ++ joinLines body) ss1 := by
  induction body generalizing ss0 with
  | nil => simp [joinLines]
  | cons l ls ih =>
    have hl : contains l shaderMarker = false := h l (List.mem_cons_self _ _)
    rw [List.cons_append, parseLoop_vertex_line _ _ _ _ hl,
      ih _ (fun x hx => h x (List.mem_cons_of_mem _ hx))]
    simp [joinLines]

theorem parseLoop_body_fragment (body rest : List Str) (ss0 ss1 : Str)
    (h : ∀ l ∈ body, contains l shaderMarker = false) :
    parseLoop (body ++ rest) .FRAGMENT ss0 ss1
      = parseLoop rest .FRAGMENT ss0 (ss1 ++ joinLines body) := by
  induction body generalizing ss1 with
  | nil => simp [joinLines]
  | cons l ls ih =>
    have hl : contains l shaderMarker = false := h l (List.mem_cons_self _ _)
    rw [List.cons_append, parseLoop_fragment_line _ _ _ _ hl,
      ih _ (fun x hx => h x (List.mem_cons_of_mem _ hx))]
    simp [joinLines]

theorem markerFree_nil : MarkerFree [] := ⟨[], rfl, by simp⟩

theorem markerFree_append (t l : Str) (ht : MarkerFree t)
    (hl : contains l shaderMarker = false) : MarkerFree (t ++ l ++ [newline]) := by
  obtain ⟨ls, rfl, hls⟩ := ht
  refine ⟨ls ++ [l], ?_, ?_⟩
  · rw [joinLines_append]
    simp [joinLines]
  · intro x hx
    rcases List.mem_append.mp hx with h1 | h2
    · exact hls x h1
    · rw [List.mem_singleton.mp h2]
      exact hl

theorem markerFree_not_contains (t : Str) (ht : MarkerFree t) :
    contains t shaderMarker = false := by
  obtain ⟨ls, rfl, hls⟩ := ht
  exact not_contains_joinLines ls hls

theorem parseLoop_markerFree (lines : List Str) (t : ShaderType) (ss0 ss1 : Str)
    (src : ShaderProgramSource) (h0 : MarkerFree ss0) (h1 : MarkerFree ss1)
    (h : parseLoop lines t ss0 ss1 = .returned src) :
    MarkerFree src.VertexSource ∧ MarkerFree src.FragmentSource := by
  induction lines generalizing t ss0 ss1 with
  | nil =>
    simp only [parseLoop, ParseResult.returned.injEq] at h
    subst h
    exact ⟨h0, h1⟩
  | cons l ls ih =>
    cases hm : contains l shaderMarker with
    | true =>
      cases hv : contains l vertexKeyword with
      | true =>
        rw [parseLoop_vertex_directive _ _ _ _ _ hm hv] at h
        exact ih _ _ _ h0 h1 h
      | false =>
        cases hf : contains l fragmentKeyword with
        | true =>
          rw [parseLoop_fragment_directive _ _ _ _ _ hm hv hf] at h
          exact ih _ _ _ h0 h1 h
        | false =>
          rw [parseLoop_bad_directive _ _ _ _ _ hm hv hf] at h
          exact absurd h (by simp)
    | false =>
      cases t with
      | NONE =>
        rw [parseLoop_none_line _ _ _ _ hm] at h
        exact absurd h (by simp)
      | VERTEX =>
        rw [parseLoop_vertex_line _ _ _ _ hm] at h
        exact ih _ _ _ (markerFree_append _ _ h0 hm) h1 h
      | FRAGMENT =>
        rw [parseLoop_fragment_line _ _ _ _ hm] at h
        exact ih _ _ _ h0 (markerFree_append _ _ h1 hm) h

theorem parseLoop_vertex_empty (lines : List Str) (t : ShaderType) (ss1 : Str)
    (src : ShaderProgramSource) (ht : t ≠ .VERTEX)
    (hno : ∀ l ∈ lines, selectsVertex l = false)
    (h : parseLoop lines t [] ss1 = .returned src) : src.VertexSource = [] := by
  induction lines generalizing t ss1 with
  | nil =>
    simp only [parseLoop, ParseResult.returned.injEq] at h
    subst h
    rfl
  | cons l ls ih =>
    have hl : selectsVertex l = false := hno l (List.mem_cons_self _ _)
    have hrest : ∀ x ∈ ls, selectsVertex x = false :=
      fun x hx => hno x (List.mem_cons_of_mem _ hx)
    cases hm : contains l shaderMarker with
    | true =>
      cases hv : contains l vertexKeyword with
      | true =>
        simp [selectsVertex, hm, hv] at hl
      | false =>
        cases hf : contains l fragmentKeyword with
        | true =>
          rw [parseLoop_fragment_directive _ _ _ _ _ hm hv hf] at h
          exact ih _ _ (by decide) hrest h
        | false =>
          rw [parseLoop_bad_directive _ _ _ _ _ hm hv hf] at h
          exact absurd h (by simp)
    | false =>
      cases t with
      | NONE =>
        rw [parseLoop_none_line _ _ _ _ hm] at h
        exact absurd h (by simp)
      | VERTEX => exact absurd rfl ht
      | FRAGMENT =>
        rw [parseLoop_fragment_line _ _ _ _ hm] at h
        exact ih _ _ (by decide) hrest h

theorem parseLoop_fragment_empty (lines : List Str) (t : ShaderType) (ss0 : Str)
    (src : ShaderProgramSource) (ht : t ≠ .FRAGMENT)
    (hno : ∀ l ∈ lines, selectsFragment l = false)
    (h : parseLoop lines t ss0 [] = .returned src) : src.FragmentSource = [] := by
  induction lines generalizing t ss0 with
  | nil =>
    simp only [parseLoop, ParseResult.returned.injEq] at h
    subst h
    rfl
  | cons l ls ih =>
    have hl : selectsFragment l = false := hno l (List.mem_cons_self _ _)
    have hrest : ∀ x ∈ ls, selectsFragment x = false :=
      fun x hx => hno x (List.mem_cons_of_mem _ hx)
    cases hm : contains l shaderMarker with
    | true =>
      cases hv : contains l vertexKeyword with
      | true =>
        rw [parseLoop_vertex_directive _ _ _ _ _ hm hv] at h
        exact ih _ _ (by decide) hrest h
      | false =>
        cases hf : contains l fragmentKeyword with
        | true =>
          simp [selectsFragment, hm, hv, hf] at hl
        | false =>
          rw [parseLoop_bad_directive _ _ _ _ _ hm hv hf] at h
          exact absurd h (by simp)
    | false =>
      cases t with
      | NONE =>
        rw [parseLoop_none_line _ _ _ _ hm] at h
        exact absurd h (by simp)
      | VERTEX =>
        rw [parseLoop_vertex_line _ _ _ _ hm] at h
        exact ih _ _ (by decide) hrest h
      | FRAGMENT => exact absurd rfl ht

/-- Once the loop has passed a prefix of the file without stopping, an unrecognised
directive line makes it throw. -/
theorem parseLoop_reaches_bad_directive (good rest : List Str) (bad : Str) (t : ShaderType)
    (ss0 ss1 : Str) (src : ShaderProgramSource)
    (hgood : parseLoop good t ss0 ss1 = .returned src)
    (hbad : unrecognisedDirective bad = true) :
    parseLoop (good ++ bad :: rest) t ss0 ss1
      = .caught "Failed to find vertex or fragment shaders!" := by
  have hb : contains bad shaderMarker = true ∧ contains bad vertexKeyword = false
      ∧ contains bad fragmentKeyword = false := by
    simpa [unrecognisedDirective, and_assoc] using hbad
  induction good generalizing t ss0 ss1 with
  | nil => exact parseLoop_bad_directive _ _ _ _ _ hb.1 hb.2.1 hb.2.2
  | cons l ls ih =>
    rw [List.cons_append]
    cases hm : contains l shaderMarker with
    | true =>
      cases hv : contains l vertexKeyword with
      | true =>
        rw [parseLoop_vertex_directive _ _ _ _ _ hm hv] at hgood ⊢
        exact ih _ _ _ hgood
      | false =>
        cases hf : contains l fragmentKeyword with
        | true =>
          rw [parseLoop_fragment_directive _ _ _ _ _ hm hv hf] at hgood ⊢
          exact ih _ _ _ hgood
        | false =>
          rw [parseLoop_bad_directive _ _ _ _ _ hm hv hf]
    | false =>
      cases t with
      | NONE =>
        rw [parseLoop_none_line _ _ _ _ hm] at hgood
        exact absurd hgood (by simp)
      | VERTEX =>
        rw [parseLoop_vertex_line _ _ _ _ hm] at hgood ⊢
        exact ih _ _ _ hgood
      | FRAGMENT =>
        rw [parseLoop_fragment_line _ _ _ _ hm] at hgood ⊢
        exact ih _ _ _ hgood

/-- A file whose first line is not a directive makes the loop subscript `ss` with `-1`:
no error is thrown and nothing is returned. -/
theorem ParseShader_line_before_directive (contents l : Str) (rest : List Str)
    (hlines : getlines contents = l :: rest) (hl : contains l shaderMarker = false) :
    ParseShader (some contents) = .invalidIndex (-1) := by
  simp only [ParseShader, hlines]
  exact parseLoop_none_line _ _ _ _ hl

/-- A file in which every line before the first unrecognised directive line is handled
without leaving the array makes `ParseShader` report the failure. -/
theorem ParseShader_bad_directive_reached (contents bad : Str) (good rest : List Str)
    (src : ShaderProgramSource)
    (hlines : getlines contents = good ++ bad :: rest)
    (hgood : parseLoop good .NONE [] [] = .returned src)
    (hbad : unrecognisedDirective bad = true) :
    ParseShader (some contents) = .caught "Failed to find vertex or fragment shaders!" := by
  simp only [ParseShader, hlines]
  exact parseLoop_reaches_bad_directive _ _ _ _ _ _ _ hgood hbad

/-! ## Facts about rounding -/

theorem roundHalfEven_intCast (n : ℤ) : roundHalfEven (n : ℚ) = n := by
  unfold roundHalfEven
  simp

theorem roundTo_binary32_natCast (n : ℕ) (h : n < 2 ^ 24) :
    roundTo binary32 (n : ℚ) = .finite n := by
  rcases Nat.eq_zero_or_pos n with h0 | h0
  · subst h0
    simp [roundTo]
  have hx : (0 : ℚ) < n := by exact_mod_cast h0
  have hL0 : (0 : ℤ) ≤ Int.log 2 (n : ℚ) := by
    rw [← Int.zpow_le_iff_le_log (by norm_num) hx]
    simp only [zpow_zero]
    exact_mod_cast h0
  have hL1 : Int.log 2 (n : ℚ) < 24 := by
    rw [← Int.lt_zpow_iff_log_lt (by norm_num) hx]
    norm_num
    omega
  obtain ⟨m, hm⟩ : ∃ m : ℕ, (m : ℤ) = 23 - Int.log 2 (n : ℚ) :=
    ⟨(23 - Int.log 2 (n : ℚ)).toNat, Int.toNat_of_nonneg (by omega)⟩
  have hq : quantum binary32 (n : ℚ) = ((2 : ℚ) ^ m)⁻¹ := by
    unfold quantum
    rw [abs_of_pos hx, max_eq_left (by simp only [binary32]; omega)]
    have he : Int.log 2 (n : ℚ) - (((binary32.prec : ℕ) : ℤ) - 1) = -(m : ℤ) := by
      simp only [binary32]
      omega
    rw [he, zpow_neg, zpow_natCast]
  have hpow : (0 : ℚ) < (2 : ℚ) ^ m := by positivity
  have hdiv : (n : ℚ) / ((2 : ℚ) ^ m)⁻¹ = (((n * 2 ^ m : ℕ) : ℤ) : ℚ) := by
    rw [div_inv_eq_mul]
    push_cast
    ring
  have hback : ((((n * 2 ^ m : ℕ) : ℤ) : ℚ)) * ((2 : ℚ) ^ m)⁻¹ = n := by
    push_cast
    field_simp
  unfold roundTo
  rw [if_neg hx.ne', hq, hdiv, roundHalfEven_intCast, hback, abs_of_pos hx]
  have hnot : ¬ (2 : ℚ) ^ (binary32.emax + 1) ≤ (n : ℚ) := by
    rw [not_le]
    have h1 : ((n : ℕ) : ℚ) < ((2 ^ 24 : ℕ) : ℚ) := by exact_mod_cast h
    have h2 : (((2 : ℕ) ^ 24 : ℕ) : ℚ) ≤ (2 : ℚ) ^ (binary32.emax + 1) := by
      simp only [binary32]
      norm_num
    linarith
  rw [if_neg hnot]

theorem floatLiteral_natCast (n : ℕ) (h : n < 2 ^ 24) : floatLiteral (n : ℚ) = .finite n :=
  roundTo_binary32_natCast n h

theorem floatLiteral_one : floatLiteral 1 = .finite 1 := by
  simpa using floatLiteral_natCast 1 (by norm_num)

theorem transformUpdate_scaleX (s : LoopState) :
    (transformUpdate s).scaleX = subAssignDouble s.scaleX (doubleLiteral 0.05) := by
  unfold transformUpdate
  split <;> rfl

theorem transformUpdate_scaleY (s : LoopState) :
    (transformUpdate s).scaleY = subAssignDouble s.scaleY (doubleLiteral 0.05) := by
  unfold transformUpdate
  split <;> rfl

theorem transformUpdate_Turn (s : LoopState) : (transformUpdate s).Turn = !s.Turn := by
  unfold transformUpdate
  split <;> rfl

theorem transformUpdate_timer (s : LoopState) : (transformUpdate s).timer = delayTime := by
  unfold transformUpdate
  split <;> rfl

theorem transformUpdate_sc (s : LoopState) :
    (transformUpdate s).sc
      = [Elem.scale (transformUpdate s).scaleX (transformUpdate s).scaleY (.finite 1)] := by
  rw [← floatLiteral_one]
  unfold transformUpdate
  split <;> rfl

theorem transformUpdate_rot (s : LoopState) :
    (transformUpdate s).rot = [Elem.rotateZ (transformUpdate s).angle] := by
  unfold transformUpdate
  split <;> rfl

theorem transformUpdate_model (s : LoopState) :
    (transformUpdate s).model
      = if s.Turn then (transformUpdate s).sc ++ s.model
        else (transformUpdate s).rot ++ s.model := by
  unfold transformUpdate
  split <;> simp

/-- The update does not read the timer. -/
theorem transformUpdate_with_timer (s : LoopState) (t : Nat) :
    transformUpdate { s with timer := t } = transformUpdate s := by
  unfold transformUpdate
  rfl

theorem afterTriggers_scaleY_eq (n : Nat) :
    (afterTriggers n).scaleY = (afterTriggers n).scaleX := by
  induction n with
  | zero => rfl
  | succ n ih => rw [afterTriggers, transformUpdate_scaleX, transformUpdate_scaleY, ih]

theorem afterTriggers_Turn (n : Nat) : (afterTriggers n).Turn = decide (n % 2 = 0) := by
  induction n with
  | zero => rfl
  | succ n ih =>
    rw [afterTriggers, transformUpdate_Turn, ih]
    rcases Nat.mod_two_eq_zero_or_one n with h | h
    · have h2 : (n + 1) % 2 = 1 := by omega
      simp [h, h2]
    · have h2 : (n + 1) % 2 = 0 := by omega
      simp [h, h2]

theorem afterTriggers_sc (n : Nat) :
    (afterTriggers n).sc
      = [Elem.scale (afterTriggers n).scaleX (afterTriggers n).scaleX (.finite 1)] := by
  cases n with
  | zero => simp [afterTriggers, initialState, glmScale, mat4Identity, floatLiteral_one]
  | succ n =>
    have h := transformUpdate_sc (afterTriggers n)
    have hy := afterTriggers_scaleY_eq (n + 1)
    simp only [afterTriggers] at hy ⊢
    rw [h, hy]

theorem afterTriggers_rot (n : Nat) :
    (afterTriggers n).rot = [Elem.rotateZ (afterTriggers n).angle] := by
  cases n with
  | zero => simp [afterTriggers, initialState, glmRotateZ, mat4Identity]
  | succ n => rw [afterTriggers, transformUpdate_rot]

theorem afterTriggers_model_succ (n : Nat) :
    (afterTriggers (n + 1)).model
      = if n % 2 = 0 then
          Elem.scale (afterTriggers (n + 1)).scaleX (afterTriggers (n + 1)).scaleX (.finite 1)
            :: (afterTriggers n).model
        else Elem.rotateZ (afterTriggers (n + 1)).angle :: (afterTriggers n).model := by
  have hsc := afterTriggers_sc (n + 1)
  have hrot := afterTriggers_rot (n + 1)
  have hm : (afterTriggers (n + 1)).model
      = if (afterTriggers n).Turn then (afterTriggers (n + 1)).sc ++ (afterTriggers n).model
        else (afterTriggers (n + 1)).rot ++ (afterTriggers n).model := by
    simp only [afterTriggers]
    exact transformUpdate_model _
  rw [hm, hsc, hrot, afterTriggers_Turn]
  by_cases h : n % 2 = 0
  · simp [h]
  · simp [h]

theorem runFrames_succ_state (n : Nat) (s : LoopState) :
    (runFrames (n + 1) s).1 = (frame (runFrames n s).1).1 := by
  induction n generalizing s with
  | zero => rfl
  | succ n ih =>
    have h : (runFrames (n + 1 + 1) s).1 = (runFrames (n + 1) (frame s).1).1 := rfl
    rw [h, ih (frame s).1]
    rfl

theorem stateAt_succ (i : Nat) : stateAt (i + 1) = (frame (stateAt i)).1 :=
  runFrames_succ_state i initialState

theorem decrement_pos (t : Nat) (h0 : 0 < t) (h : t < 2 ^ 32) : decrement t = t - 1 := by
  unfold decrement
  have h1 : t + 2 ^ 32 - 1 = (t - 1) + 2 ^ 32 := by omega
  rw [h1, Nat.add_mod_right, Nat.mod_eq_of_lt (by omega)]

theorem timerAt_le (i : Nat) : timerAt i ≤ 3999 := by
  unfold timerAt
  split <;> omega

theorem frame_idle (s : LoopState) (h : s.timer ≠ 0) :
    (frame s).1 = { s with timer := decrement s.timer } := by
  simp [frame, h]

theorem frame_trigger (s : LoopState) (h : s.timer = 0) :
    (frame s).1 = { transformUpdate s with timer := decrement delayTime } := by
  simp [frame, h, transformUpdate_timer]

/-- The state at the start of every iteration: the transform variables are those after the
triggers so far and the timer follows its closed form. -/
theorem stateAt_eq (i : Nat) :
    stateAt i = { afterTriggers (triggersBefore i) with timer := timerAt i } := by
  induction i with
  | zero => rfl
  | succ i ih =>
    rw [stateAt_succ, ih]
    by_cases h : timerAt i = 0
    · rw [frame_trigger _ h, transformUpdate_with_timer]
      have hi : 50 ≤ i := by
        unfold timerAt at h
        split at h <;> omega
      have ht : timerAt (i + 1) = 3999 := by
        unfold timerAt at h ⊢
        split at h <;> split <;> omega
      have hc : triggersBefore (i + 1) = triggersBefore i + 1 := by
        unfold timerAt at h
        unfold triggersBefore
        split at h <;> split <;> omega
      have hd : decrement delayTime = 3999 := by decide
      rw [ht, hc, hd]
      rfl
    · rw [frame_idle _ h]
      have hle := timerAt_le i
      have hd : decrement (timerAt i) = timerAt i - 1 :=
        decrement_pos _ (Nat.pos_of_ne_zero h) (by
          have : (3999 : Nat) < 2 ^ 32 := by decide
          omega)
      have ht : timerAt (i + 1) = timerAt i - 1 := by
        unfold timerAt at h ⊢
        split at h <;> split <;> omega
      have hc : triggersBefore (i + 1) = triggersBefore i := by
        unfold timerAt at h
        unfold triggersBefore
        split at h <;> split <;> omega
      simp only [hd, ht, hc]

theorem stateAt_timer (i : Nat) : (stateAt i).timer = timerAt i := by
  rw [stateAt_eq]

theorem fires_iff_timerAt (i : Nat) : fires i = true ↔ timerAt i = 0 := by
  simp [fires, stateAt_timer]

theorem timerAt_eq_zero_iff (i : Nat) : timerAt i = 0 ↔ ∃ k, i = 50 + 4000 * k := by
  unfold timerAt
  constructor
  · intro h
    refine ⟨(i - 50) / 4000, ?_⟩
    split at h <;> omega
  · rintro ⟨k, rfl⟩
    split <;> omega

/-- The state right after the iteration in which trigger number `n + 1` fires. -/
theorem stateAt_after_trigger (n : Nat) :
    stateAt (51 + 4000 * n) = { afterTriggers (n + 1) with timer := 3999 } := by
  rw [stateAt_eq]
  have h1 : triggersBefore (51 + 4000 * n) = n + 1 := by
    unfold triggersBefore
    split <;> omega
  have h2 : timerAt (51 + 4000 * n) = 3999 := by
    unfold timerAt
    split <;> omega
  rw [h1, h2]

theorem allDrawCalls_append (a b : List DriverCall) :
    allDrawCalls (a ++ b) = allDrawCalls a + allDrawCalls b := by
  induction a with
  | nil => simp [allDrawCalls]
  | cons c cs ih =>
    cases c <;> simp [allDrawCalls, ih]
    omega

theorem frame_drawCalls (s : LoopState) :
    drawCalls 9 (frame s).2 = 1 ∧ allDrawCalls (frame s).2 = 1 := by
  by_cases h : s.timer = 0
  · simp [frame, h, drawCalls, allDrawCalls]
  · simp [frame, h, drawCalls, allDrawCalls]

theorem runFrames_drawCalls (n : Nat) (s : LoopState) :
    drawCalls 9 (runFrames n s).2 = n ∧ allDrawCalls (runFrames n s).2 = n := by
  induction n generalizing s with
  | zero => simp [runFrames, drawCalls, allDrawCalls]
  | succ n ih =>
    obtain ⟨h1, h2⟩ := frame_drawCalls s
    obtain ⟨h3, h4⟩ := ih (frame s).1
    unfold drawCalls at h1 h3 ⊢
    constructor
    · simp only [runFrames, List.count_append, h1, h3]
      omega
    · simp only [runFrames, allDrawCalls_append, h2, h4]
      omega

/-- C1. A file made of a vertex directive line, at least one body line, a fragment
directive line without the vertex keyword and at least one body line, with no marker in
any body line, is parsed into the vertex body lines and the fragment body lines, each line
followed by a line feed and in file order; both texts are non-empty. -/
theorem ParseShader_well_formed (contents vdir fdir : Str) (vs fs : List Str)
    (hlines : getlines contents = vdir :: vs ++ fdir :: fs)
    (hvm : contains vdir shaderMarker = true) (hvk : contains vdir vertexKeyword = true)
    (hfm : contains fdir shaderMarker = true) (hfk : contains fdir fragmentKeyword = true)
    (hfv : contains fdir vertexKeyword = false)
    (hvs : vs ≠ []) (hfs : fs ≠ [])
    (hvbody : ∀ l ∈ vs, contains l shaderMarker = false)
    (hfbody : ∀ l ∈ fs, contains l shaderMarker = false) :
    ParseShader (some contents) = .returned ⟨joinLines vs, joinLines fs⟩
      ∧ joinLines vs ≠ [] ∧ joinLines fs ≠ [] := by
  refine ⟨?_, joinLines_ne_nil vs hvs, joinLines_ne_nil fs hfs⟩
  simp only [ParseShader, hlines]
  rw [List.cons_append, parseLoop_vertex_directive _ _ _ _ _ hvm hvk, parseLoop_body_vertex _ _ _ _ hvbody,
    parseLoop_fragment_directive _ _ _ _ _ hfm hfv hfk]
  have h := parseLoop_body_fragment fs [] ([] ++ joinLines vs) [] hfbody
  rw [List.append_nil] at h
  rw [h]
  simp [parseLoop]

/-- Witness for C1: a two-section file with two vertex body lines and one fragment body
line, the last line not terminated in the file. -/
theorem ParseShader_well_formed_witness :
    ParseShader (some ("#shader vertex\nab\ncd\n#shader fragment\nef".toList))
        = .returned ⟨joinLines ["ab".toList, "cd".toList], joinLines ["ef".toList]⟩
      ∧ joinLines ["ab".toList, "cd".toList] ≠ [] ∧ joinLines ["ef".toList] ≠ [] :=
  ParseShader_well_formed ("#shader vertex\nab\ncd\n#shader fragment\nef".toList)
    ("#shader vertex".toList) ("#shader fragment".toList) ["ab".toList, "cd".toList]
    ["ef".toList] (by decide) (by decide) (by decide) (by decide) (by decide) (by decide)
    (by decide) (by decide) (by decide) (by decide)

/-- C2, at the failing input: a file with an ordinary line followed by a directive line
with an unrecognised keyword. The loop subscripts `ss` with `-1` at the first line, so the
failure of the directive line is never reported. -/
theorem ParseShader_unrecognised_directive_after_line :
    unrecognisedDirective ("#shader geometry".toList) = true
      ∧ getlines ("// basic\n#shader geometry\n".toList)
          = ["// basic".toList, "#shader geometry".toList]
      ∧ ParseShader (some ("// basic\n#shader geometry\n".toList)) = .invalidIndex (-1)
      ∧ ∀ what, ParseShader (some ("// basic\n#shader geometry\n".toList))
          ≠ .caught what := by
  refine ⟨by decide, by decide, by decide, ?_⟩
  intro what h
  have h2 : ParseShader (some ("// basic\n#shader geometry\n".toList))
      = .invalidIndex (-1) := by decide
  rw [h2] at h
  exact absurd h (by simp)

/-- C3, at the failing input: a file whose first line is not a directive. The append of
line 79 is executed with section index `-1`; no error is reported. -/
theorem ParseShader_appends_at_none :
    contains ("layout in vec4 position;".toList) shaderMarker = false
      ∧ appendIndices (getlines ("layout in vec4 position;\n#shader vertex\n".toList)) .NONE
          = [-1]
      ∧ ParseShader (some ("layout in vec4 position;\n#shader vertex\n".toList))
          = .invalidIndex (-1) := by
  refine ⟨by decide, by decide, by decide⟩

/-- C4. When `ParseShader` returns and no line of the file selects the vertex section, the
vertex text is empty; when no line selects the fragment section, the fragment text is
empty. -/
theorem ParseShader_missing_section_empty (contents : Str) (src : ShaderProgramSource)
    (h : ParseShader (some contents) = .returned src) :
    ((∀ l ∈ getlines contents, selectsVertex l = false) → src.VertexSource = [])
      ∧ ((∀ l ∈ getlines contents, selectsFragment l = false) → src.FragmentSource = []) := by
  simp only [ParseShader] at h
  exact ⟨fun hno => parseLoop_vertex_empty _ _ _ _ (by decide) hno h,
    fun hno => parseLoop_fragment_empty _ _ _ _ (by decide) hno h⟩

/-- Witness for C4: a file with only a fragment section. -/
theorem ParseShader_missing_section_empty_witness :
    ParseShader (some ("#shader fragment\ncd\n".toList)) = .returned ⟨[], "cd\n".toList⟩
      ∧ (∀ l ∈ getlines ("#shader fragment\ncd\n".toList), selectsVertex l = false)
      ∧ (⟨[], "cd\n".toList⟩ : ShaderProgramSource).VertexSource = [] :=
  ⟨by decide, by decide,
    (ParseShader_missing_section_empty ("#shader fragment\ncd\n".toList) ⟨[], "cd\n".toList⟩
      (by decide)).1 (by decide)⟩

/-- C9. When `ParseShader` returns, neither the vertex text nor the fragment text contains
the directive marker. -/
theorem ParseShader_no_marker_in_sources (stream : Option Str) (src : ShaderProgramSource)
    (h : ParseShader stream = .returned src) :
    contains src.VertexSource shaderMarker = false
      ∧ contains src.FragmentSource shaderMarker = false := by
  cases stream with
  | none => simp [ParseShader] at h
  | some contents =>
    simp only [ParseShader] at h
    obtain ⟨hv, hf⟩ := parseLoop_markerFree _ _ _ _ _ markerFree_nil markerFree_nil h
    exact ⟨markerFree_not_contains _ hv, markerFree_not_contains _ hf⟩

/-- Witness for C9: a file with both sections and a repeated vertex directive. -/
theorem ParseShader_no_marker_in_sources_witness :
    ParseShader (some ("#shader vertex\na#\n#shader fragment\nshader\n#shader vertex\nb".toList))
        = .returned ⟨"a#\nb\n".toList, "shader\n".toList⟩
      ∧ contains ("a#\nb\n".toList) shaderMarker = false
      ∧ contains ("shader\n".toList) shaderMarker = false :=
  ⟨by decide,
    ParseShader_no_marker_in_sources
      (some ("#shader vertex\na#\n#shader fragment\nshader\n#shader vertex\nb".toList))
      ⟨"a#\nb\n".toList, "shader\n".toList⟩ (by decide)⟩

/-! ## The render loop: claims -/

/-- C6. Every trigger sets the timer to the delay constant 4000, whatever the state; from
the initial state the trigger fires exactly in the iterations `50 + 4000 * k`, so after a
trigger the next one fires exactly 4000 iterations later and none fires in between. -/
theorem timer_reset_never_drifts :
    delayTime = 4000
      ∧ (∀ s : LoopState, (transformUpdate s).timer = delayTime)
      ∧ (∀ i, fires i = true → (stateAt (i + 1)).timer = delayTime - 1)
      ∧ (∀ i, fires i = true ↔ ∃ k, i = 50 + 4000 * k)
      ∧ (∀ i, fires i = true →
          fires (i + 4000) = true ∧ ∀ d, 0 < d → d < 4000 → fires (i + d) = false) := by
  refine ⟨rfl, transformUpdate_timer, ?_, ?_, ?_⟩
  · intro i hi
    rw [fires_iff_timerAt] at hi
    rw [stateAt_timer]
    unfold timerAt at hi ⊢
    unfold delayTime
    split at hi <;> split <;> omega
  · intro i
    rw [fires_iff_timerAt, timerAt_eq_zero_iff]
  · intro i hi
    rw [fires_iff_timerAt] at hi
    constructor
    · rw [fires_iff_timerAt]
      unfold timerAt at hi ⊢
      split at hi <;> split <;> omega
    · intro d hd0 hd
      cases hf : fires (i + d) with
      | false => rfl
      | true =>
        rw [fires_iff_timerAt] at hf
        unfold timerAt at hi hf
        split at hi <;> split at hf <;> omega

/-- C7. Every iteration of the render loop makes exactly one indexed draw call, and it
covers 9 indices, whether or not the timer triggers in that iteration; `n` iterations make
exactly `n` draw calls. -/
theorem one_draw_call_per_frame :
    (∀ s : LoopState, drawCalls 9 (frame s).2 = 1 ∧ allDrawCalls (frame s).2 = 1)
      ∧ (∀ (n : Nat) (s : LoopState),
          drawCalls 9 (runFrames n s).2 = n ∧ allDrawCalls (runFrames n s).2 = n) :=
  ⟨frame_drawCalls, runFrames_drawCalls⟩

/-- C8. Trigger number `n + 1` pre-multiplies the model matrix by the freshly computed
scale matrix when `n + 1` is odd and by the freshly computed rotation matrix when `n + 1`
is even, one single factor per trigger; every trigger toggles `Turn`, and after `n`
triggers `Turn` is true exactly when `n` is even. -/
theorem transform_update_alternates (n : Nat) :
    (afterTriggers (n + 1)).model
        = (if (n + 1) % 2 = 1 then (afterTriggers (n + 1)).sc else (afterTriggers (n + 1)).rot)
            ++ (afterTriggers n).model
      ∧ (∃ x y z, (afterTriggers (n + 1)).sc = [Elem.scale x y z])
      ∧ (∃ deg, (afterTriggers (n + 1)).rot = [Elem.rotateZ deg])
      ∧ (afterTriggers (n + 1)).Turn = !(afterTriggers n).Turn
      ∧ ((afterTriggers n).Turn = true ↔ n % 2 = 0) := by
  refine ⟨?_, ⟨_, _, _, afterTriggers_sc (n + 1)⟩, ⟨_, afterTriggers_rot (n + 1)⟩,
    transformUpdate_Turn _, ?_⟩
  · rw [afterTriggers_model_succ, afterTriggers_sc, afterTriggers_rot]
    rcases Nat.mod_two_eq_zero_or_one n with h | h
    · have h2 : (n + 1) % 2 = 1 := by omega
      simp [h, h2]
    · have h2 : ¬ (n + 1) % 2 = 1 := by omega
      have h3 : ¬ n % 2 = 0 := by omega
      simp [h2, h3]
  · rw [afterTriggers_Turn]
    simp

end OpenGLproj1
